import Mathlib

/-!
Verification of the simulation core of the `rust_boids` repository against its
natural-language specification.

The development is a shallow embedding of the Rust sources:

* `src/math.rs`   — vector helpers and toroidal wrapping;
* `src/actors.rs` — the arcade-shooter actor engine (player, shots, rocks);
* `src/boids_mgr.rs` — the flocking engine (parallel arrays of boids plus
  attractors).

Rust `f32` arithmetic is modelled by exact real arithmetic (`ℝ`).  Division in
`ℝ` is total with `x / 0 = 0`; every place where the Rust code can divide by
zero (and would produce `NaN`/`Infinity`) is noted at the definition that
embeds it.  Calls to `rand::random::<f32>()`, which return a value in `[0, 1)`,
are modelled by explicit real-valued parameters (or streams `ℕ → ℝ`) together
with the hypothesis that each drawn value lies in `[0, 1)`.
-/

namespace RustBoids

noncomputable section

open scoped Classical

/-! ## Two-dimensional vectors (`ggez::graphics::Point2` / `Vector2`) -/

structure Vec2 where
  x : ℝ
  y : ℝ

instance : Zero Vec2 := ⟨⟨0, 0⟩⟩

instance : Add Vec2 := ⟨fun v w => ⟨v.x + w.x, v.y + w.y⟩⟩

instance : Sub Vec2 := ⟨fun v w => ⟨v.x - w.x, v.y - w.y⟩⟩

/-- Scalar multiple of a vector (`Vector2 * f32` in nalgebra). -/
def smul (c : ℝ) (v : Vec2) : Vec2 := ⟨c * v.x, c * v.y⟩

/-- Componentwise division of a vector by a scalar (`Vector2 / f32`). -/
def sdiv (v : Vec2) (c : ℝ) : Vec2 := ⟨v.x / c, v.y / c⟩

/-- Euclidean norm (nalgebra's `Vector2::norm`). -/
def Vec2.norm (v : Vec2) : ℝ := Real.sqrt (v.x * v.x + v.y * v.y)

/-- Squared norm (nalgebra's `Vector2::norm_squared`). -/
def Vec2.normSq (v : Vec2) : ℝ := v.x * v.x + v.y * v.y

/-- nalgebra's `Vector2::normalize`, i.e. `v / v.norm()`.  At `v = 0` the Rust
code divides by zero and yields `NaN` components; the real-number model yields
`0` there.  Every theorem that touches the zero-vector case states this
divergence explicitly. -/
def Vec2.normalize (v : Vec2) : Vec2 := ⟨v.x / v.norm, v.y / v.norm⟩

/-! ## `src/math.rs` -/

/-- `math::vec_from_angle`: the unit vector `(sin angle, cos angle)`. -/
def vec_from_angle (angle : ℝ) : Vec2 := ⟨Real.sin angle, Real.cos angle⟩

/-- `math::angle_from_vec`: `atan2 v.x v.y`. -/
def angle_from_vec (v : Vec2) : ℝ := Real.arctan (v.x / v.y)

/-- `math::random_vec(max_magnitude)`.  The two `rand::random::<f32>()` draws
are passed in as `rndAngle` and `rndMag`, each expected in `[0, 1)`. -/
def random_vec (rndAngle rndMag maxMagnitude : ℝ) : Vec2 :=
  smul (rndMag * maxMagnitude) (vec_from_angle (rndAngle * (2 * Real.pi)))

/-- `math::world_to_screen_coords`. -/
def world_to_screen_coords (screenWidth screenHeight : ℝ) (point : Vec2) : Vec2 :=
  ⟨point.x + screenWidth / 2, screenHeight - (point.y + screenHeight / 2)⟩

/-- `math::wrap_actor_position`: one-shot toroidal wrap of a position against
the boundary `(boundary.x, boundary.y)`.  Each axis is adjusted by at most one
boundary length. -/
def wrap_actor_position (pos : Vec2) (boundary : Vec2) : Vec2 :=
  let screen_x_bounds := boundary.x / 2
  let screen_y_bounds := boundary.y / 2
  let px := if pos.x > screen_x_bounds then pos.x - boundary.x
    else if pos.x < -screen_x_bounds then pos.x + boundary.x else pos.x
  let py := if pos.y > screen_y_bounds then pos.y - boundary.y
    else if pos.y < -screen_y_bounds then pos.y + boundary.y else pos.y
  ⟨px, py⟩

/-! ## `src/actors.rs` — data model -/

inductive ActorType where
  | Player : ActorType
  | Rock : ActorType
  | Shot : ActorType

/-- The `Actor` record of `src/actors.rs`. -/
structure Actor where
  tag : ActorType
  pos : Vec2
  facing : ℝ
  velocity : Vec2
  ang_vel : ℝ
  bbox_size : ℝ
  life : ℝ

def PLAYER_LIFE : ℝ := 1
def SHOT_LIFE : ℝ := 2
def ROCK_LIFE : ℝ := 1
def PLAYER_BBOX : ℝ := 12
def ROCK_BBOX : ℝ := 12
def SHOT_BBOX : ℝ := 6
def MAX_ROCK_VEL : ℝ := 50
def SHOT_SPEED : ℝ := 200
def SHOT_ANG_VEL : ℝ := 0.1
def PLAYER_THRUST : ℝ := 100
def PLAYER_TURN_RATE : ℝ := 3
def MAX_PHYSICS_VEL : ℝ := 250

def create_player : Actor :=
  { tag := ActorType.Player, pos := 0, facing := 0, velocity := 0, ang_vel := 0,
    bbox_size := PLAYER_BBOX, life := PLAYER_LIFE }

def create_rock : Actor :=
  { tag := ActorType.Rock, pos := 0, facing := 0, velocity := 0, ang_vel := 0,
    bbox_size := ROCK_BBOX, life := ROCK_LIFE }

def create_shot : Actor :=
  { tag := ActorType.Shot, pos := 0, facing := 0, velocity := 0, ang_vel := SHOT_ANG_VEL,
    bbox_size := SHOT_BBOX, life := SHOT_LIFE }

/-- The `ActorManager` aggregate: one player plus the shot and rock
collections. -/
structure ActorManager where
  player : Actor
  shots : List Actor
  rocks : List Actor

structure InputState where
  xaxis : ℝ
  yaxis : ℝ
  fire : Bool

/-! ## `ActorManager::handle_collisions`

The Rust loop walks the rocks; for each rock it first tests the player
(`pdistance.norm() < player.bbox_size + rock.bbox_size`, on hit setting the
player's life to `0`), then walks the shots, and for each shot with
`(shot.pos - rock.pos).norm() < shot.bbox_size + rock.bbox_size` it sets both
the shot's and the rock's life to `0` and increments `num_hits`.  The distance
test never reads `life`. -/

/-- The shot/rock overlap test of `handle_collisions`. -/
def pairHit (rock s : Actor) : Prop := (s.pos - rock.pos).norm < s.bbox_size + rock.bbox_size

/-- The player/rock overlap test of `handle_collisions`. -/
def playerHit (p rock : Actor) : Prop := (rock.pos - p.pos).norm < p.bbox_size + rock.bbox_size

/-- Set an actor's life to `0` (the effect of a registered hit). -/
def setLife0 (a : Actor) : Actor := { a with life := 0 }

/-- Inner loop of `handle_collisions`: one rock against the shot list.
Returns the updated shots, the updated rock and the number of hits counted. -/
def handleShots : Actor → List Actor → List Actor × Actor × ℤ
  | rock, [] => ([], rock, 0)
  | rock, s :: rest =>
    let hit := pairHit rock s
    let s' := if hit then setLife0 s else s
    let rock' := if hit then setLife0 rock else rock
    let out := handleShots rock' rest
    (s' :: out.1, out.2.1, out.2.2 + (if hit then 1 else 0))

/-- Outer loop of `handle_collisions`: walks the rocks, threading the player
and the shot list.  Returns player, shots, rocks and the hit count. -/
def handleRocks : Actor → List Actor → List Actor → Actor × List Actor × List Actor × ℤ
  | p, shots, [] => (p, shots, [], 0)
  | p, shots, rock :: rest =>
    let p' := if playerHit p rock then setLife0 p else p
    let hs := handleShots rock shots
    let out := handleRocks p' hs.1 rest
    (out.1, out.2.1, hs.2.1 :: out.2.2.1, hs.2.2 + out.2.2.2)

/-- `ActorManager::handle_collisions`, returning the new state and `num_hits`. -/
def ActorManager.handle_collisions (m : ActorManager) : ActorManager × ℤ :=
  let out := handleRocks m.player m.shots m.rocks
  (⟨out.1, out.2.1, out.2.2.1⟩, out.2.2.2)

/-- Number of shots overlapping a given rock (by the `pairHit` test). -/
def countShotHits : Actor → List Actor → ℤ
  | _, [] => 0
  | rock, s :: rest => (if pairHit rock s then 1 else 0) + countShotHits rock rest

/-- Number of (rock, shot) pairs whose center distance is strictly below the
sum of the two bounding radii. -/
def countHits : List Actor → List Actor → ℤ
  | _, [] => 0
  | shots, r :: rest => countShotHits r shots + countHits shots rest

/-- Projection of an `Actor` to every field except `life` and `tag`. -/
def coreFields (a : Actor) : Vec2 × ℝ × Vec2 × ℝ × ℝ :=
  (a.pos, a.facing, a.velocity, a.ang_vel, a.bbox_size)

/-- A concrete state for exercising `handle_collisions` twice: the player, one
rock and one shot, all at the origin.  The shot/rock distance is `0`, below
the combined radii `6 + 12`. -/
def mC3 : ActorManager :=
  { player := create_player, shots := [create_shot], rocks := [create_rock] }

/-! ## `ActorManager::update` -/

/-- `player_thrust` (nested in `ActorManager::update`):
`velocity += vec_from_angle(facing) * PLAYER_THRUST * dt`. -/
def player_thrust (a : Actor) (dt : ℝ) : Actor :=
  { a with velocity := a.velocity + smul dt (smul PLAYER_THRUST (vec_from_angle a.facing)) }

/-- `player_handle_input`: steering, then thrust if `yaxis > 0`. -/
def player_handle_input (a : Actor) (input : InputState) (dt : ℝ) : Actor :=
  let a1 : Actor := { a with facing := a.facing + dt * PLAYER_TURN_RATE * input.xaxis }
  if input.yaxis > 0 then player_thrust a1 dt else a1

/-- `update_actor_position` (nested in `ActorManager::update`): clamp the
velocity to `MAX_PHYSICS_VEL` by rescaling if `norm_squared` exceeds its
square, integrate the position, add the (un-scaled) angular velocity to the
facing. -/
def update_actor_position (a : Actor) (dt : ℝ) : Actor :=
  let v := if a.velocity.normSq > MAX_PHYSICS_VEL ^ 2
    then smul MAX_PHYSICS_VEL (sdiv a.velocity (Real.sqrt a.velocity.normSq))
    else a.velocity
  { a with velocity := v, pos := a.pos + smul dt v, facing := a.facing + a.ang_vel }

/-- `wrap_actor_position` of `src/actors.rs` on a whole actor; the
coordinate arithmetic is identical to `math::wrap_actor_position`. -/
def wrap_actor (a : Actor) (sx sy : ℝ) : Actor :=
  { a with pos := wrap_actor_position a.pos ⟨sx, sy⟩ }

/-- `ActorManager::update`: player input, then physics + wrap for the player,
every shot (whose life is additionally aged by `seconds`) and every rock. -/
def ActorManager.update (m : ActorManager) (seconds : ℝ) (input : InputState)
    (sw sh : ℝ) : ActorManager :=
  let player := player_handle_input m.player input seconds
  let player := wrap_actor (update_actor_position player seconds) sw sh
  let shots := m.shots.map fun a =>
    let a1 := wrap_actor (update_actor_position a seconds) sw sh
    { a1 with life := a1.life - seconds }
  let rocks := m.rocks.map fun a => wrap_actor (update_actor_position a seconds) sw sh
  { player := player, shots := shots, rocks := rocks }

/-! ## `create_rocks` -/

/-- One rock of `create_rocks`: random angle `r1 * 2π`, random distance
`r2 * (maxR - minR) + minR` from the exclusion center, random velocity
`random_vec` with draws `r3`, `r4` and cap `MAX_ROCK_VEL`. -/
def new_rock (exclusion : Vec2) (minR maxR : ℝ) (r1 r2 r3 r4 : ℝ) : Actor :=
  let r_angle := r1 * (2 * Real.pi)
  let r_distance := r2 * (maxR - minR) + minR
  { create_rock with
    pos := exclusion + smul r_distance (vec_from_angle r_angle),
    velocity := random_vec r3 r4 MAX_ROCK_VEL }

/-- `create_rocks(num, exclusion, min_radius, max_radius)`.  The leading
`assert!(max_radius > min_radius)` is modelled by returning `none` (panic)
when the assertion fails.  The `rand::random::<f32>()` draws (four per rock,
each in `[0, 1)`) are supplied by the stream `rnd`. -/
def create_rocks (num : ℕ) (exclusion : Vec2) (minR maxR : ℝ) (rnd : ℕ → ℝ) :
    Option (List Actor) :=
  if maxR > minR then
    some ((List.range num).map fun i =>
      new_rock exclusion minR maxR (rnd (4 * i)) (rnd (4 * i + 1)) (rnd (4 * i + 2))
        (rnd (4 * i + 3)))
  else none

/-! ## `src/boids_mgr.rs` — data model and constants -/

def NUM_BOIDS : ℕ := 100
def NUM_ATTRACTORS : ℕ := 8
def ACCELERATION_LIMIT : ℝ := 60
def SPEED_LIMIT : ℝ := 100
def MIN_SPEED_LIMIT : ℝ := 50
def SEPARATION_DISTANCE : ℝ := 40
def SEP_DIST_SQ : ℝ := SEPARATION_DISTANCE * SEPARATION_DISTANCE
def COHESION_DISTANCE : ℝ := 200
def COH_DIST_SQ : ℝ := COHESION_DISTANCE * COHESION_DISTANCE
def ALIGNMENT_DISTANCE : ℝ := 200
def ALI_DIST_SQ : ℝ := ALIGNMENT_DISTANCE * ALIGNMENT_DISTANCE
def SEPARATION_FORCE : ℝ := 10.15
def COHESION_FORCE : ℝ := 0.1
def ALIGNMENT_FORCE : ℝ := 0.25
def ATTRACTOR_RADIUS : ℝ := 150
def ATTRACTOR_FORCE : ℝ := 0.525

/-- The `Attractors` struct: three parallel arrays. -/
structure Attractors where
  position : List Vec2
  radius : List ℝ
  force : List ℝ

/-- The `BoidComponent` struct: three parallel boid arrays plus the
attractors. -/
structure BoidComponent where
  position : List Vec2
  acceleration : List Vec2
  velocity : List Vec2
  attractors : Attractors

instance : AddCommMonoid Vec2 where
  add_assoc a b c := by
    show Vec2.mk (a.x + b.x + c.x) (a.y + b.y + c.y) =
      Vec2.mk (a.x + (b.x + c.x)) (a.y + (b.y + c.y))
    rw [add_assoc, add_assoc]
  zero_add a := by
    show Vec2.mk (0 + a.x) (0 + a.y) = a
    rw [zero_add, zero_add]
  add_zero a := by
    show Vec2.mk (a.x + 0) (a.y + 0) = a
    rw [add_zero, add_zero]
  add_comm a b := by
    show Vec2.mk (a.x + b.x) (a.y + b.y) = Vec2.mk (b.x + a.x) (b.y + a.y)
    rw [add_comm, add_comm a.y]
  nsmul := nsmulRec

/-- `BoidComponent::new` (the `with_capacity` vectors are empty). -/
def BoidComponent.new : BoidComponent :=
  { position := [], acceleration := [], velocity := [],
    attractors := { position := [], radius := [], force := [] } }

/-- `BoidComponent::spawn_random`: pushes one random position, a zero
acceleration and one random velocity, returning the new boid's index
(`position.len() - 1` after the pushes, i.e. the old length).  The four
`rand::random::<f32>()` draws are the parameters `r1 .. r4`. -/
def spawn_random (c : BoidComponent) (r1 r2 r3 r4 : ℝ) : BoidComponent × ℕ :=
  ({ c with
     position := c.position ++ [⟨100 * r1, 100 * r2⟩],
     acceleration := c.acceleration ++ [⟨0, 0⟩],
     velocity := c.velocity ++ [⟨400 * r3 - 200, 400 * r4 - 200⟩] },
   c.position.length)

/-- `BoidComponent::spawn_attractor`. -/
def spawn_attractor (c : BoidComponent) (screen : Vec2) (r1 r2 : ℝ) : BoidComponent × ℕ :=
  ({ c with
     attractors :=
      { position := c.attractors.position ++
          [⟨screen.x * r1 - screen.x / 2, screen.y * r2 - screen.y / 2⟩],
        radius := c.attractors.radius ++ [ATTRACTOR_RADIUS],
        force := c.attractors.force ++ [ATTRACTOR_FORCE] } },
   c.attractors.position.length)

/-- The boid-spawning loop of `BoidComponent::init` (`k` iterations of
`spawn_random`, fed from the stream `rnd`). -/
def spawnBoidsLoop (rnd : ℕ → ℝ) : ℕ → BoidComponent → BoidComponent
  | 0, c => c
  | k + 1, c =>
    spawnBoidsLoop rnd k
      (spawn_random c (rnd (4 * k)) (rnd (4 * k + 1)) (rnd (4 * k + 2)) (rnd (4 * k + 3))).1

/-- The attractor-spawning loop of `BoidComponent::init`. -/
def spawnAttractorsLoop (screen : Vec2) (rnd : ℕ → ℝ) : ℕ → BoidComponent → BoidComponent
  | 0, c => c
  | k + 1, c =>
    spawnAttractorsLoop screen rnd k
      (spawn_attractor c screen (rnd (2 * k)) (rnd (2 * k + 1))).1

/-- `BoidComponent::init`: `NUM_BOIDS` calls of `spawn_random` followed by
`NUM_ATTRACTORS` calls of `spawn_attractor`. -/
def BoidComponent.init (c : BoidComponent) (screen : Vec2) (rndB rndA : ℕ → ℝ) :
    BoidComponent :=
  spawnAttractorsLoop screen rndA NUM_ATTRACTORS (spawnBoidsLoop rndB NUM_BOIDS c)

/-! ## `BoidComponent::update` -/

/-- nalgebra's `Matrix::len()` is the total number of matrix entries — `2`
for a `Vector2`, irrespective of the vector's value.  (It is not the
Euclidean norm; the source calls `s_force.len() as f32`, a `usize` cast,
whereas `norm()` already returns `f32`.)  `BoidComponent::update` divides
each force sum by this constant. -/
def VECTOR2_LEN : ℝ := 2

/-- Separation conversion of `BoidComponent::update` (line 134-135):
`Vector2::new(s.x * SEPARATION_FORCE / s.len(), s.y * SEPARATION_FORCE / s.len())`
with `s.len() = 2`. -/
def sepVector (s : Vec2) : Vec2 :=
  ⟨s.x * SEPARATION_FORCE / VECTOR2_LEN, s.y * SEPARATION_FORCE / VECTOR2_LEN⟩

/-- Cohesion conversion (line 139-140), with the sign flip toward the
centroid. -/
def cohVector (c : Vec2) : Vec2 :=
  ⟨-c.x * COHESION_FORCE / VECTOR2_LEN, -c.y * COHESION_FORCE / VECTOR2_LEN⟩

/-- Alignment conversion (line 144-145).  The x component is scaled by
`COHESION_FORCE` in the source, only the y component by `ALIGNMENT_FORCE`. -/
def aliVector (a : Vec2) : Vec2 :=
  ⟨a.x * COHESION_FORCE / VECTOR2_LEN, a.y * ALIGNMENT_FORCE / VECTOR2_LEN⟩

/-- Separation weight (line 119): `1 - (SEPARATION_DISTANCE - dist) /
SEPARATION_DISTANCE`. -/
def sepWeight (dist : ℝ) : ℝ := 1 - (SEPARATION_DISTANCE - dist) / SEPARATION_DISTANCE

/-- One iteration of the attractor loop for boid position `p`: if the boid is
inside the attractor's radius, subtract the unit vector toward the attractor
scaled by its force from the velocity.  (When `p` coincides with the
attractor the Rust division `spare / 0` yields `NaN`; the real model yields a
zero delta.) -/
def attractorStep (att : Attractors) (p : Vec2) (v : Vec2) (t : ℕ) : Vec2 :=
  let spare := p - att.position.getD t 0
  let dist := spare.norm
  if dist < att.radius.getD t 0 then
    v - ⟨att.force.getD t 0 * spare.x / spare.norm, att.force.getD t 0 * spare.y / spare.norm⟩
  else v

/-- The attractor loop (lines 95-106). -/
def attractorFold (att : Attractors) (p v : Vec2) : Vec2 :=
  (List.range att.position.length).foldl (attractorStep att p) v

/-- One iteration of the neighbor scan (lines 108-131) for boid `b` against
boid `t`, accumulating the separation/cohesion/alignment sums. -/
def neighborStep (pos vel : List Vec2) (b : ℕ) (sca : Vec2 × Vec2 × Vec2) (t : ℕ) :
    Vec2 × Vec2 × Vec2 :=
  if b = t then sca else
  let spare := pos.getD b 0 - pos.getD t 0
  let dist_squared := spare.x * spare.x + spare.y * spare.y
  if dist_squared < SEP_DIST_SQ then
    (sca.1 + smul (sepWeight spare.norm) spare, sca.2.1, sca.2.2)
  else
    (sca.1,
     (if dist_squared < COH_DIST_SQ then sca.2.1 + spare else sca.2.1),
     (if dist_squared < ALI_DIST_SQ then sca.2.2 + vel.getD t 0 else sca.2.2))

/-- The full neighbor scan for boid `b`: fold over all boid indices. -/
def neighborSums (pos vel : List Vec2) (b : ℕ) : Vec2 × Vec2 × Vec2 :=
  (List.range pos.length).foldl (neighborStep pos vel b) (0, 0, 0)

/-- Velocity of boid `b` after its attractor loop. -/
def boidNewVel (st : BoidComponent) (b : ℕ) : Vec2 :=
  attractorFold st.attractors (st.position.getD b 0) (st.velocity.getD b 0)

/-- The three force sums of boid `b`, read from the state in which boid `b`'s
attractor perturbation has already been written back (boids before `b` carry
their own perturbations from earlier iterations). -/
def boidSums (st : BoidComponent) (b : ℕ) : Vec2 × Vec2 × Vec2 :=
  neighborSums st.position (st.velocity.set b (boidNewVel st b)) b

/-- This tick's total separation+cohesion+alignment contribution added to
`acceleration[b]` (lines 133-146). -/
def boidAccContribution (st : BoidComponent) (b : ℕ) : Vec2 :=
  sepVector (boidSums st b).1 + cohVector (boidSums st b).2.1 + aliVector (boidSums st b).2.2

/-- One iteration of the first (force) loop of `BoidComponent::update`:
writes boid `b`'s perturbed velocity and accumulates (`+=`) into its
acceleration. -/
def forceStep (st : BoidComponent) (b : ℕ) : BoidComponent :=
  { st with
    velocity := st.velocity.set b (boidNewVel st b),
    acceleration := st.acceleration.set b (st.acceleration.getD b 0 + boidAccContribution st b) }

/-- The first `n` iterations of the force loop. -/
def forcePhaseAux (c : BoidComponent) (n : ℕ) : BoidComponent :=
  (List.range n).foldl forceStep c

/-- The complete force loop (`for b in 0..boids_length`). -/
def forcePhase (c : BoidComponent) : BoidComponent := forcePhaseAux c c.position.length

/-- The contribution added to `acceleration[b]` during this tick, evaluated
in the state the loop has reached when it processes boid `b`. -/
def tickContribution (c : BoidComponent) (b : ℕ) : Vec2 :=
  boidAccContribution (forcePhaseAux c b) b

/-- Acceleration clamp (lines 153-155). -/
def clampAccel (a : Vec2) : Vec2 :=
  if a.norm > ACCELERATION_LIMIT then smul ACCELERATION_LIMIT a.normalize else a

/-- Upper speed clamp (lines 158-160). -/
def clampSpeedHigh (v : Vec2) : Vec2 :=
  if v.norm > SPEED_LIMIT then smul SPEED_LIMIT v.normalize else v

/-- Lower speed clamp (lines 161-163).  At `v = 0` the Rust `normalize()`
produces `NaN` components; the real model produces `0`. -/
def clampSpeedLow (v : Vec2) : Vec2 :=
  if v.norm < MIN_SPEED_LIMIT then smul MIN_SPEED_LIMIT v.normalize else v

/-- Both speed clamps, applied in source order. -/
def clampSpeed (v : Vec2) : Vec2 := clampSpeedLow (clampSpeedHigh v)

/-- One iteration of the second (integration) loop of
`BoidComponent::update` (lines 152-167): clamp the acceleration, integrate
and clamp the velocity, integrate and wrap the position. -/
def integStep (dt : ℝ) (scr : Vec2) (st : BoidComponent) (i : ℕ) : BoidComponent :=
  let a1 := clampAccel (st.acceleration.getD i 0)
  let v2 := clampSpeed (st.velocity.getD i 0 + smul dt a1)
  let p1 := wrap_actor_position (st.position.getD i 0 + smul dt v2) scr
  { st with
    acceleration := st.acceleration.set i a1,
    velocity := st.velocity.set i v2,
    position := st.position.set i p1 }

/-- The first `n` iterations of the integration loop. -/
def integAux (c : BoidComponent) (dt : ℝ) (scr : Vec2) (n : ℕ) : BoidComponent :=
  (List.range n).foldl (integStep dt scr) c

/-- `BoidComponent::update`: force loop over `0..position.len()`, then
integration loop over `0..acceleration.len()`. -/
def BoidComponent.update (c : BoidComponent) (dt : ℝ) (scr : Vec2) : BoidComponent :=
  integAux (forcePhase c) dt scr (forcePhase c).acceleration.length

/-! ## Concrete single-boid states -/

/-- No attractors. -/
def attEmpty : Attractors := { position := [], radius := [], force := [] }

/-- One boid at the origin with velocity `(60, 0)` and zero acceleration. -/
def cA : BoidComponent :=
  { position := [⟨0, 0⟩], acceleration := [⟨0, 0⟩], velocity := [⟨60, 0⟩],
    attractors := attEmpty }

/-- The same boid but with the leftover acceleration `(7, 0)` from an earlier
tick. -/
def cB : BoidComponent :=
  { position := [⟨0, 0⟩], acceleration := [⟨7, 0⟩], velocity := [⟨60, 0⟩],
    attractors := attEmpty }

/-- One boid at rest: zero velocity and zero acceleration. -/
def cZ : BoidComponent :=
  { position := [⟨0, 0⟩], acceleration := [⟨0, 0⟩], velocity := [⟨0, 0⟩],
    attractors := attEmpty }

/-! ## The separation sum as a weighted sum over neighbors -/

/-- The term boid `t` contributes to boid `b`'s separation sum: zero for
`t = b` and outside the separation radius, otherwise
`(pos[b] - pos[t])` scaled by `sepWeight` of the distance. -/
def sepTerm (pos : List Vec2) (b t : ℕ) : Vec2 :=
  if b = t then 0 else
  let spare := pos.getD b 0 - pos.getD t 0
  if spare.x * spare.x + spare.y * spare.y < SEP_DIST_SQ then smul (sepWeight spare.norm) spare
  else 0

/-! ## Theorems -/

@[simp] theorem Vec2.zero_x : (0 : Vec2).x = 0 := rfl

@[simp] theorem Vec2.zero_y : (0 : Vec2).y = 0 := rfl

@[simp] theorem Vec2.add_x (v w : Vec2) : (v + w).x = v.x + w.x := rfl

@[simp] theorem Vec2.add_y (v w : Vec2) : (v + w).y = v.y + w.y := rfl

@[simp] theorem Vec2.sub_x (v w : Vec2) : (v - w).x = v.x - w.x := rfl

@[simp] theorem Vec2.sub_y (v w : Vec2) : (v - w).y = v.y - w.y := rfl

@[simp] theorem smul_x (c : ℝ) (v : Vec2) : (smul c v).x = c * v.x := rfl

@[simp] theorem smul_y (c : ℝ) (v : Vec2) : (smul c v).y = c * v.y := rfl

@[simp] theorem sdiv_x (v : Vec2) (c : ℝ) : (sdiv v c).x = v.x / c := rfl

@[simp] theorem sdiv_y (v : Vec2) (c : ℝ) : (sdiv v c).y = v.y / c := rfl

@[ext] theorem Vec2.ext' {v w : Vec2} (hx : v.x = w.x) (hy : v.y = w.y) : v = w := by
  cases v; cases w; cases hx; cases hy; rfl

theorem Vec2.norm_nonneg (v : Vec2) : 0 ≤ v.norm := Real.sqrt_nonneg _

theorem Vec2.norm_eq_zero {v : Vec2} : v.norm = 0 ↔ v = 0 := by
  unfold Vec2.norm
  rw [Real.sqrt_eq_zero (add_nonneg (mul_self_nonneg _) (mul_self_nonneg _))]
  constructor
  · intro h
    have hx : v.x = 0 := by nlinarith [sq_nonneg v.x, sq_nonneg v.y]
    have hy : v.y = 0 := by nlinarith [sq_nonneg v.x, sq_nonneg v.y]
    exact Vec2.ext' hx hy
  · intro h; subst h; simp

theorem Vec2.norm_pos {v : Vec2} (h : v ≠ 0) : 0 < v.norm :=
  lt_of_le_of_ne (Vec2.norm_nonneg v) (fun h0 => h (Vec2.norm_eq_zero.mp h0.symm))

theorem norm_smul (c : ℝ) (v : Vec2) : (smul c v).norm = |c| * v.norm := by
  unfold Vec2.norm
  simp only [smul_x, smul_y]
  rw [show c * v.x * (c * v.x) + c * v.y * (c * v.y) = c ^ 2 * (v.x * v.x + v.y * v.y) by ring,
    Real.sqrt_mul (sq_nonneg c), Real.sqrt_sq_eq_abs]

theorem normalize_eq_smul (v : Vec2) : v.normalize = smul (1 / v.norm) v := by
  unfold Vec2.normalize
  refine Vec2.ext' ?_ ?_ <;> simp [div_eq_mul_inv, mul_comm]

theorem norm_normalize {v : Vec2} (h : v ≠ 0) : v.normalize.norm = 1 := by
  rw [normalize_eq_smul, norm_smul,
    abs_of_nonneg (one_div_nonneg.mpr (Vec2.norm_nonneg v)), one_div,
    inv_mul_cancel₀ (ne_of_gt (Vec2.norm_pos h))]

/-- Norm of a vector lying on the x-axis. -/
theorem norm_axis (a : ℝ) : Vec2.norm ⟨a, 0⟩ = |a| := by
  unfold Vec2.norm
  rw [show a * a + 0 * 0 = a ^ 2 by ring, Real.sqrt_sq_eq_abs]

@[simp] theorem norm_zero_vec : Vec2.norm 0 = 0 := by
  rw [show (0 : Vec2) = (⟨0, 0⟩ : Vec2) from rfl, norm_axis, abs_zero]

theorem norm_vec_from_angle (angle : ℝ) : (vec_from_angle angle).norm = 1 := by
  unfold vec_from_angle Vec2.norm
  rw [show Real.sin angle * Real.sin angle + Real.cos angle * Real.cos angle
      = Real.sin angle ^ 2 + Real.cos angle ^ 2 by ring,
    Real.sin_sq_add_cos_sq, Real.sqrt_one]

/-- Claim C4, counterexample: `wrap_actor_position` wraps by at most one
boundary length per axis, so the position `(200, 0)` with the positive bounds
`(100, 100)` is mapped to `(100, 0)`, whose x-coordinate is outside
`[-100/2, 100/2]`.  The claim "for every position ... both resulting
coordinates lie within `[-bounds/2, bounds/2]`" is therefore false. -/
theorem claim4_ctr :
    (wrap_actor_position ⟨200, 0⟩ ⟨100, 100⟩).x = 100 ∧
      ¬((wrap_actor_position ⟨200, 0⟩ ⟨100, 100⟩).x ≤ 100 / 2) := by
  constructor
  · simp only [wrap_actor_position]
    norm_num
  · simp only [wrap_actor_position]
    norm_num

/-- Claim C4 (amended): for every positive bounds vector and every position
that is within one wrap of the target range (each coordinate of magnitude at
most `3/2` of its bound), `wrap_actor_position` lands in
`[-bounds/2, bounds/2]` on both axes; and a position already in that range is
left unchanged.  (The original claim quantified over every position; the
counterexample `claim4_ctr` shows positions farther than one boundary length
out are not brought into range by the single conditional subtraction.) -/
theorem claim4_wrap_range (pos bounds : Vec2) (hbx : 0 < bounds.x) (hby : 0 < bounds.y) :
    ((|pos.x| ≤ 3 * bounds.x / 2 → |pos.y| ≤ 3 * bounds.y / 2 →
        |(wrap_actor_position pos bounds).x| ≤ bounds.x / 2 ∧
          |(wrap_actor_position pos bounds).y| ≤ bounds.y / 2) ∧
      (|pos.x| ≤ bounds.x / 2 → |pos.y| ≤ bounds.y / 2 →
        wrap_actor_position pos bounds = pos)) := by
  simp only [wrap_actor_position]
  constructor
  · intro hx hy
    rw [abs_le] at hx hy
    constructor
    · split_ifs with h1 h2 <;> rw [abs_le] <;> constructor <;> linarith
    · split_ifs with h1 h2 <;> rw [abs_le] <;> constructor <;> linarith
  · intro hx hy
    rw [abs_le] at hx hy
    refine Vec2.ext' ?_ ?_ <;> dsimp only <;> split_ifs <;> first | rfl | linarith

/-- Witness for `claim4_wrap_range` at the concrete position `(60, -60)` and
bounds `(100, 100)`. -/
theorem claim4_wrap_range_w :
    (0 : ℝ) < 100 ∧ |(60 : ℝ)| ≤ 3 * 100 / 2 ∧ |(-60 : ℝ)| ≤ 3 * 100 / 2 ∧
      (|(wrap_actor_position ⟨60, -60⟩ ⟨100, 100⟩).x| ≤ 100 / 2 ∧
        |(wrap_actor_position ⟨60, -60⟩ ⟨100, 100⟩).y| ≤ 100 / 2) :=
  ⟨by norm_num, by norm_num, by norm_num,
    (claim4_wrap_range ⟨60, -60⟩ ⟨100, 100⟩ (by norm_num) (by norm_num)).1
      (by norm_num) (by norm_num)⟩

@[simp] theorem setLife0_pos (a : Actor) : (setLife0 a).pos = a.pos := rfl

@[simp] theorem setLife0_facing (a : Actor) : (setLife0 a).facing = a.facing := rfl

@[simp] theorem setLife0_velocity (a : Actor) : (setLife0 a).velocity = a.velocity := rfl

@[simp] theorem setLife0_ang_vel (a : Actor) : (setLife0 a).ang_vel = a.ang_vel := rfl

@[simp] theorem setLife0_bbox (a : Actor) : (setLife0 a).bbox_size = a.bbox_size := rfl

@[simp] theorem setLife0_tag (a : Actor) : (setLife0 a).tag = a.tag := rfl

@[simp] theorem setLife0_life (a : Actor) : (setLife0 a).life = 0 := rfl

@[simp] theorem setLife0_idem (a : Actor) : setLife0 (setLife0 a) = setLife0 a := rfl

@[simp] theorem pairHit_setLife0_left (r s : Actor) : pairHit (setLife0 r) s ↔ pairHit r s :=
  Iff.rfl

@[simp] theorem pairHit_setLife0_right (r s : Actor) : pairHit r (setLife0 s) ↔ pairHit r s :=
  Iff.rfl

@[simp] theorem playerHit_setLife0_left (p r : Actor) : playerHit (setLife0 p) r ↔ playerHit p r :=
  Iff.rfl

theorem countShotHits_rock_congr {r r' : Actor} (hp : r'.pos = r.pos)
    (hb : r'.bbox_size = r.bbox_size) (shots : List Actor) :
    countShotHits r' shots = countShotHits r shots := by
  induction shots with
  | nil => rfl
  | cons s rest ih =>
      simp only [countShotHits, ih, pairHit, hp, hb]

theorem countShotHits_map (r : Actor) (shots : List Actor) (u : Actor → Actor)
    (hu : ∀ s, (u s).pos = s.pos ∧ (u s).bbox_size = s.bbox_size) :
    countShotHits r (shots.map u) = countShotHits r shots := by
  induction shots with
  | nil => rfl
  | cons s rest ih =>
      simp only [List.map_cons, countShotHits, ih, pairHit, (hu s).1, (hu s).2]

theorem countHits_shots_map (shots rocks : List Actor) (u : Actor → Actor)
    (hu : ∀ s, (u s).pos = s.pos ∧ (u s).bbox_size = s.bbox_size) :
    countHits (shots.map u) rocks = countHits shots rocks := by
  induction rocks with
  | nil => rfl
  | cons r rest ih =>
      simp only [countHits, ih, countShotHits_map r shots u hu]

theorem countHits_map (shots rocks : List Actor) (u w : Actor → Actor)
    (hu : ∀ s, (u s).pos = s.pos ∧ (u s).bbox_size = s.bbox_size)
    (hw : ∀ r, (w r).pos = r.pos ∧ (w r).bbox_size = r.bbox_size) :
    countHits (shots.map u) (rocks.map w) = countHits shots rocks := by
  induction rocks with
  | nil => rfl
  | cons r rest ih =>
      simp only [List.map_cons, countHits, ih]
      rw [countShotHits_rock_congr (hw r).1 (hw r).2, countShotHits_map r shots u hu]

/-- Characterization of the inner collision loop: the shots hit by the rock
have their life zeroed, the rock's life is zeroed exactly when some shot hits
it, and the returned counter counts the hit shots. -/
theorem handleShots_eq (rock : Actor) (shots : List Actor) :
    handleShots rock shots =
      (shots.map (fun s => if pairHit rock s then setLife0 s else s),
        (if ∃ s ∈ shots, pairHit rock s then setLife0 rock else rock),
        countShotHits rock shots) := by
  induction shots generalizing rock with
  | nil => simp [handleShots, countShotHits]
  | cons s rest ih =>
      by_cases h : pairHit rock s
      · simp only [handleShots, countShotHits, if_pos h, ih, List.map_cons, List.mem_cons]
        refine Prod.ext rfl (Prod.ext ?_ ?_)
        · show (if ∃ t ∈ rest, pairHit (setLife0 rock) t then setLife0 (setLife0 rock)
              else setLife0 rock) = _
          simp [h]
        · show countShotHits (setLife0 rock) rest + 1 = _
          rw [countShotHits_rock_congr (setLife0_pos rock) (setLife0_bbox rock)]
          ring
      · simp only [handleShots, countShotHits, if_neg h, ih, List.map_cons, List.mem_cons]
        refine Prod.ext rfl (Prod.ext ?_ ?_)
        · show (if ∃ t ∈ rest, pairHit rock t then setLife0 rock else rock) = _
          simp [h]
        · show countShotHits rock rest + 0 = _
          simp [h]

/-- Pointwise combination of two conditional life-zeroings. -/
theorem life_map_combine (P Q : Prop) (s : Actor) :
    (if Q then setLife0 (if P then setLife0 s else s) else (if P then setLife0 s else s)) =
      if P ∨ Q then setLife0 s else s := by
  by_cases hP : P <;> by_cases hQ : Q <;> simp [hP, hQ]

/-- Characterization of `handleRocks`, and hence of `handle_collisions`: the
player's life is zeroed exactly when some rock overlaps the player; a shot's
life is zeroed exactly when it overlaps some rock; a rock's life is zeroed
exactly when some shot overlaps it; the counter is the number of overlapping
(rock, shot) pairs.  All overlap tests read only positions and radii of the
state at entry. -/
theorem handleRocks_eq (p : Actor) (shots rocks : List Actor) :
    handleRocks p shots rocks =
      ((if ∃ r ∈ rocks, playerHit p r then setLife0 p else p),
        shots.map (fun s => if ∃ r ∈ rocks, pairHit r s then setLife0 s else s),
        rocks.map (fun r => if ∃ s ∈ shots, pairHit r s then setLife0 r else r),
        countHits shots rocks) := by
  induction rocks generalizing p shots with
  | nil =>
      simp [handleRocks, countHits]
  | cons rock rest ih =>
      simp only [handleRocks, handleShots_eq, ih, countHits, List.mem_cons, List.map_cons,
        Prod.mk.injEq]
      refine ⟨?_, ?_, ?_, ?_⟩
      · by_cases h : playerHit p rock
        · have hex : ∃ r, (r = rock ∨ r ∈ rest) ∧ playerHit p r := ⟨rock, Or.inl rfl, h⟩
          simp [h, hex]
        · have hiff : (∃ r, (r = rock ∨ r ∈ rest) ∧ playerHit p r) ↔
              ∃ r ∈ rest, playerHit p r := by
            constructor
            · rintro ⟨r, (rfl | hr), hp⟩
              · exact absurd hp h
              · exact ⟨r, hr, hp⟩
            · rintro ⟨r, hr, hp⟩
              exact ⟨r, Or.inr hr, hp⟩
          simp only [h, if_false, hiff]
      · rw [List.map_map]
        refine List.map_congr_left fun s _ => ?_
        show (if ∃ r ∈ rest, pairHit r (if pairHit rock s then setLife0 s else s)
            then setLife0 (if pairHit rock s then setLife0 s else s)
            else (if pairHit rock s then setLife0 s else s)) = _
        have hiff : (∃ r ∈ rest, pairHit r (if pairHit rock s then setLife0 s else s)) ↔
            ∃ r ∈ rest, pairHit r s := by
          by_cases h : pairHit rock s <;> simp [h]
        rw [if_congr hiff rfl rfl]
        by_cases hP : pairHit rock s
        · have hex : ∃ r, (r = rock ∨ r ∈ rest) ∧ pairHit r s := ⟨rock, Or.inl rfl, hP⟩
          simp [hP, hex]
        · by_cases hQ : ∃ r ∈ rest, pairHit r s
          · obtain ⟨r, hr, h⟩ := hQ
            have hQ' : ∃ r ∈ rest, pairHit r s := ⟨r, hr, h⟩
            have hex : ∃ r, (r = rock ∨ r ∈ rest) ∧ pairHit r s := ⟨r, Or.inr hr, h⟩
            simp [hP, hQ', hex]
          · have hex : ¬∃ r, (r = rock ∨ r ∈ rest) ∧ pairHit r s := by
              rintro ⟨r, (rfl | hr), h⟩
              · exact hP h
              · exact hQ ⟨r, hr, h⟩
            simp [hP, hQ, hex]
      · congr 1
        refine List.map_congr_left fun r _ => ?_
        have hiff : (∃ s ∈ shots.map fun s => if pairHit rock s then setLife0 s else s,
            pairHit r s) ↔ ∃ s ∈ shots, pairHit r s := by
          simp only [List.mem_map]
          constructor
          · rintro ⟨s, ⟨a, ha, rfl⟩, hp⟩
            refine ⟨a, ha, ?_⟩
            by_cases h : pairHit rock a
            · simpa [h] using hp
            · simpa [h] using hp
          · rintro ⟨a, ha, hp⟩
            refine ⟨(if pairHit rock a then setLife0 a else a), ⟨a, ha, rfl⟩, ?_⟩
            by_cases h : pairHit rock a
            · simpa [h] using hp
            · simpa [h] using hp
        exact if_congr hiff rfl rfl
      · rw [countHits_shots_map shots rest _
          fun s => by by_cases h : pairHit rock s <;> simp [h]]

/-- Claim C7: `handle_collisions` returns a hit count equal to the number of
(obstacle, projectile) pairs whose center distance is strictly below the sum
of their bounding radii at the time of the call (`countHits` literally counts
those pairs over the entry state), and the life of both members of each such
pair is set to `0` (the two `map` equations: a rock's life is zeroed exactly
when some shot overlaps it, a shot's life exactly when some rock overlaps
it). -/
theorem claim7_collision_count (m : ActorManager) :
    (m.handle_collisions).2 = countHits m.shots m.rocks ∧
      (m.handle_collisions).1.rocks =
        m.rocks.map (fun r => if ∃ s ∈ m.shots, pairHit r s then setLife0 r else r) ∧
      (m.handle_collisions).1.shots =
        m.shots.map (fun s => if ∃ r ∈ m.rocks, pairHit r s then setLife0 s else s) := by
  refine ⟨?_, ?_, ?_⟩ <;> simp [ActorManager.handle_collisions, handleRocks_eq]

/-- Claim C9 (frame property): `handle_collisions` modifies only life fields.
The player's position, facing, velocity, angular velocity and bounding radius
are unchanged; every shot's and rock's non-life fields are unchanged
pointwise; both collection lengths are unchanged. -/
theorem claim9_collision_frame (m : ActorManager) :
    (m.handle_collisions).1.player.pos = m.player.pos ∧
      (m.handle_collisions).1.player.facing = m.player.facing ∧
      (m.handle_collisions).1.player.velocity = m.player.velocity ∧
      (m.handle_collisions).1.player.ang_vel = m.player.ang_vel ∧
      (m.handle_collisions).1.player.bbox_size = m.player.bbox_size ∧
      (m.handle_collisions).1.shots.map coreFields = m.shots.map coreFields ∧
      (m.handle_collisions).1.rocks.map coreFields = m.rocks.map coreFields ∧
      (m.handle_collisions).1.shots.length = m.shots.length ∧
      (m.handle_collisions).1.rocks.length = m.rocks.length := by
  have hplayer : (m.handle_collisions).1.player =
      (if ∃ r ∈ m.rocks, playerHit m.player r then setLife0 m.player else m.player) := by
    simp [ActorManager.handle_collisions, handleRocks_eq]
  refine ⟨?_, ?_, ?_, ?_, ?_, ?_, ?_, ?_, ?_⟩
  · rw [hplayer]; by_cases h : ∃ r ∈ m.rocks, playerHit m.player r <;> simp [h]
  · rw [hplayer]; by_cases h : ∃ r ∈ m.rocks, playerHit m.player r <;> simp [h]
  · rw [hplayer]; by_cases h : ∃ r ∈ m.rocks, playerHit m.player r <;> simp [h]
  · rw [hplayer]; by_cases h : ∃ r ∈ m.rocks, playerHit m.player r <;> simp [h]
  · rw [hplayer]; by_cases h : ∃ r ∈ m.rocks, playerHit m.player r <;> simp [h]
  · simp only [ActorManager.handle_collisions, handleRocks_eq, List.map_map]
    refine List.map_congr_left fun s _ => ?_
    by_cases h : ∃ r ∈ m.rocks, pairHit r s <;> simp [h, coreFields]
  · simp only [ActorManager.handle_collisions, handleRocks_eq, List.map_map]
    refine List.map_congr_left fun r _ => ?_
    by_cases h : ∃ s ∈ m.shots, pairHit r s <;> simp [h, coreFields]
  · simp [ActorManager.handle_collisions, handleRocks_eq]
  · simp [ActorManager.handle_collisions, handleRocks_eq]

/-- Claim C3, counterexample: calling `handle_collisions` a second time, with
no movement in between, again returns `1` on `mC3`, not `0`: the overlap test
reads only positions and radii, never `life`, so zeroed entities are counted
again.  This falsifies "the second call returns a hit count of 0". -/
theorem claim3_ctr :
    ((mC3.handle_collisions).1.handle_collisions).2 = 1 ∧
      ¬(((mC3.handle_collisions).1.handle_collisions).2 = 0) := by
  have hsub : ((0 : Vec2) - 0).norm = 0 := by
    rw [show (0 : Vec2) - 0 = (⟨0, 0⟩ : Vec2) from by refine Vec2.ext' ?_ ?_ <;> simp,
      norm_axis, abs_zero]
  have hp0 : pairHit create_rock create_shot := by
    unfold pairHit
    rw [show create_shot.pos - create_rock.pos = (0 : Vec2) - 0 from rfl, hsub]
    show (0 : ℝ) < SHOT_BBOX + ROCK_BBOX
    norm_num [SHOT_BBOX, ROCK_BBOX]
  have h1 : ((mC3.handle_collisions).1.handle_collisions).2 = 1 := by
    simp only [ActorManager.handle_collisions, handleRocks_eq, mC3]
    simp [countHits, countShotHits, hp0]
  exact ⟨h1, by rw [h1]; norm_num⟩

/-- Claim C3 (amended): with no movement, firing or reclamation in between,
the second call of `handle_collisions` returns the same hit count as the
first (the overlap test reads only positions and bounding radii, which the
first call leaves unchanged) — not `0`.  The count is `0` only when the first
count was already `0`. -/
theorem claim3_second_call (m : ActorManager) :
    ((m.handle_collisions).1.handle_collisions).2 = (m.handle_collisions).2 := by
  simp only [ActorManager.handle_collisions, handleRocks_eq]
  exact countHits_map _ _ _ _
    (fun s => by by_cases h : ∃ r ∈ m.rocks, pairHit r s <;> simp [h])
    (fun r => by by_cases h : ∃ s ∈ m.shots, pairHit r s <;> simp [h])

theorem norm_eq_sqrt_normSq (v : Vec2) : v.norm = Real.sqrt v.normSq := rfl

theorem normSq_nonneg (v : Vec2) : 0 ≤ v.normSq :=
  add_nonneg (mul_self_nonneg _) (mul_self_nonneg _)

theorem sdiv_eq_smul (v : Vec2) (c : ℝ) : sdiv v c = smul (1 / c) v := by
  refine Vec2.ext' ?_ ?_ <;> simp [div_eq_mul_inv, mul_comm]

/-- After `update_actor_position` the velocity magnitude is at most
`MAX_PHYSICS_VEL`: either it was already (its square at most the cap's
square), or it has been rescaled to exactly the cap. -/
theorem update_actor_velocity_le (a : Actor) (dt : ℝ) :
    ((update_actor_position a dt).velocity).norm ≤ MAX_PHYSICS_VEL := by
  have hcap : (0 : ℝ) < MAX_PHYSICS_VEL := by norm_num [MAX_PHYSICS_VEL]
  show (if a.velocity.normSq > MAX_PHYSICS_VEL ^ 2
      then smul MAX_PHYSICS_VEL (sdiv a.velocity (Real.sqrt a.velocity.normSq))
      else a.velocity).norm ≤ MAX_PHYSICS_VEL
  by_cases h : a.velocity.normSq > MAX_PHYSICS_VEL ^ 2
  · rw [if_pos h, sdiv_eq_smul, norm_smul, norm_smul]
    have hs : 0 < Real.sqrt a.velocity.normSq := by
      rw [Real.sqrt_pos]
      nlinarith
    rw [norm_eq_sqrt_normSq, abs_of_nonneg (le_of_lt hcap),
      abs_of_nonneg (one_div_nonneg.mpr (le_of_lt hs)), one_div,
      inv_mul_cancel₀ (ne_of_gt hs), mul_one]
  · rw [if_neg h]
    rw [norm_eq_sqrt_normSq]
    calc Real.sqrt a.velocity.normSq ≤ Real.sqrt (MAX_PHYSICS_VEL ^ 2) :=
        Real.sqrt_le_sqrt (by linarith [not_lt.mp h])
    _ = MAX_PHYSICS_VEL := Real.sqrt_sq (le_of_lt hcap)

@[simp] theorem wrap_actor_velocity (a : Actor) (sx sy : ℝ) :
    (wrap_actor a sx sy).velocity = a.velocity := rfl

/-- Every entity of the actor engine has velocity magnitude at most
`MAX_PHYSICS_VEL` after `ActorManager::update` (helper shared by the claim
theorems). -/
theorem actor_update_velocity_bound (m : ActorManager) (seconds : ℝ) (input : InputState)
    (sw sh : ℝ) :
    ((m.update seconds input sw sh).player.velocity.norm ≤ MAX_PHYSICS_VEL) ∧
      (∀ a ∈ (m.update seconds input sw sh).shots, a.velocity.norm ≤ MAX_PHYSICS_VEL) ∧
      (∀ a ∈ (m.update seconds input sw sh).rocks, a.velocity.norm ≤ MAX_PHYSICS_VEL) := by
  refine ⟨?_, ?_, ?_⟩
  · exact update_actor_velocity_le (player_handle_input m.player input seconds) seconds
  · intro a ha
    simp only [ActorManager.update, List.mem_map] at ha
    obtain ⟨a0, _, rfl⟩ := ha
    exact update_actor_velocity_le a0 seconds
  · intro a ha
    simp only [ActorManager.update, List.mem_map] at ha
    obtain ⟨a0, _, rfl⟩ := ha
    exact update_actor_velocity_le a0 seconds

/-- Claim C8: `create_rocks` fails fast (assertion panic, modelled as `none`)
when `maxRadius ≤ minRadius`; otherwise it produces exactly `num` rocks, each
at distance in `[minR, maxR)` from the exclusion center and with velocity
magnitude strictly below `MAX_ROCK_VEL = 50`.  The hypotheses state that the
random draws lie in `[0, 1)` (the contract of `rand::random::<f32>()`) and
that the radii are nonnegative lengths. -/
theorem claim8_create_rocks (num : ℕ) (exclusion : Vec2) (minR maxR : ℝ) (rnd : ℕ → ℝ)
    (hrnd : ∀ n, 0 ≤ rnd n ∧ rnd n < 1) (hmin : 0 ≤ minR) :
    (maxR ≤ minR → create_rocks num exclusion minR maxR rnd = none) ∧
      (minR < maxR → ∃ l, create_rocks num exclusion minR maxR rnd = some l ∧
        l.length = num ∧
        ∀ a ∈ l, (minR ≤ (a.pos - exclusion).norm ∧ (a.pos - exclusion).norm < maxR) ∧
          a.velocity.norm < MAX_ROCK_VEL) := by
  constructor
  · intro h
    rw [create_rocks, if_neg (not_lt.mpr h)]
  · intro h
    refine ⟨_, by rw [create_rocks, if_pos h], by simp, ?_⟩
    intro a ha
    simp only [List.mem_map, List.mem_range] at ha
    obtain ⟨i, _, rfl⟩ := ha
    have hr2 := hrnd (4 * i + 1)
    have hr4 := hrnd (4 * i + 3)
    set r2 := rnd (4 * i + 1)
    set r4 := rnd (4 * i + 3)
    have hdist : (0 : ℝ) ≤ r2 * (maxR - minR) + minR := by nlinarith [hr2.1]
    constructor
    · have hpos : (new_rock exclusion minR maxR (rnd (4 * i)) r2 (rnd (4 * i + 2)) r4).pos -
          exclusion =
          smul (r2 * (maxR - minR) + minR) (vec_from_angle (rnd (4 * i) * (2 * Real.pi))) := by
        show (exclusion + _) - exclusion = _
        refine Vec2.ext' ?_ ?_ <;> simp
      rw [hpos, norm_smul, norm_vec_from_angle, mul_one, abs_of_nonneg hdist]
      constructor
      · nlinarith [hr2.1]
      · nlinarith [hr2.2]
    · have h50 : (0 : ℝ) < MAX_ROCK_VEL := by norm_num [MAX_ROCK_VEL]
      have hvel : (new_rock exclusion minR maxR (rnd (4 * i)) r2 (rnd (4 * i + 2)) r4).velocity =
          random_vec (rnd (4 * i + 2)) r4 MAX_ROCK_VEL := rfl
      rw [hvel, random_vec, norm_smul, norm_vec_from_angle, mul_one,
        abs_of_nonneg (mul_nonneg hr4.1 (le_of_lt h50))]
      exact mul_lt_of_lt_one_left h50 hr4.2

/-- Witness for `claim8_create_rocks` with one rock, exclusion center at the
origin, radii `100 < 250`, and the constant-zero random stream. -/
theorem claim8_create_rocks_w :
    (∀ n : ℕ, 0 ≤ (fun _ : ℕ => (0 : ℝ)) n ∧ (fun _ : ℕ => (0 : ℝ)) n < 1) ∧
      (0 : ℝ) ≤ 100 ∧ (100 : ℝ) < 250 ∧
      (∃ l, create_rocks 1 0 100 250 (fun _ => 0) = some l ∧ l.length = 1 ∧
        ∀ a ∈ l, (100 ≤ (a.pos - 0).norm ∧ (a.pos - 0).norm < 250) ∧
          a.velocity.norm < MAX_ROCK_VEL) :=
  ⟨fun _ => by norm_num, by norm_num, by norm_num,
    (claim8_create_rocks 1 0 100 250 (fun _ => 0) (fun _ => by norm_num) (by norm_num)).2
      (by norm_num)⟩

/-! ## List index helpers -/

theorem getD_set_self {α : Type} (l : List α) (i : ℕ) (a d : α) (h : i < l.length) :
    (l.set i a).getD i d = a := by
  rw [List.getD_eq_getElem _ _ (by simpa using h)]
  simp

theorem getD_set_ne {α : Type} (l : List α) (i j : ℕ) (a d : α) (h : i ≠ j) :
    (l.set i a).getD j d = l.getD j d := by
  rcases Nat.lt_or_ge j l.length with hj | hj
  · rw [List.getD_eq_getElem _ _ (by simpa using hj), List.getD_eq_getElem _ _ hj]
    simp [List.getElem_set_ne h]
  · rw [List.getD_eq_default _ _ (by simpa using hj), List.getD_eq_default _ _ hj]

/-! ## Structure of the force loop -/

@[simp] theorem forceStep_position (st : BoidComponent) (b : ℕ) :
    (forceStep st b).position = st.position := rfl

@[simp] theorem forceStep_attractors (st : BoidComponent) (b : ℕ) :
    (forceStep st b).attractors = st.attractors := rfl

theorem forcePhaseAux_zero (c : BoidComponent) : forcePhaseAux c 0 = c := rfl

theorem forcePhaseAux_succ (c : BoidComponent) (n : ℕ) :
    forcePhaseAux c (n + 1) = forceStep (forcePhaseAux c n) n := by
  unfold forcePhaseAux
  rw [List.range_succ, List.foldl_append]
  rfl

theorem forcePhaseAux_position (c : BoidComponent) (n : ℕ) :
    (forcePhaseAux c n).position = c.position := by
  induction n with
  | zero => rfl
  | succ n ih => rw [forcePhaseAux_succ, forceStep_position, ih]

theorem forcePhaseAux_attractors (c : BoidComponent) (n : ℕ) :
    (forcePhaseAux c n).attractors = c.attractors := by
  induction n with
  | zero => rfl
  | succ n ih => rw [forcePhaseAux_succ, forceStep_attractors, ih]

theorem forcePhaseAux_acc_length (c : BoidComponent) (n : ℕ) :
    (forcePhaseAux c n).acceleration.length = c.acceleration.length := by
  induction n with
  | zero => rfl
  | succ n ih =>
      rw [forcePhaseAux_succ]
      show ((forcePhaseAux c n).acceleration.set n _).length = _
      rw [List.length_set, ih]

theorem forcePhaseAux_vel_length (c : BoidComponent) (n : ℕ) :
    (forcePhaseAux c n).velocity.length = c.velocity.length := by
  induction n with
  | zero => rfl
  | succ n ih =>
      rw [forcePhaseAux_succ]
      show ((forcePhaseAux c n).velocity.set n _).length = _
      rw [List.length_set, ih]

theorem forcePhaseAux_acc_untouched (c : BoidComponent) (n j : ℕ) (h : n ≤ j) :
    (forcePhaseAux c n).acceleration.getD j 0 = c.acceleration.getD j 0 := by
  induction n with
  | zero => rfl
  | succ n ih =>
      rw [forcePhaseAux_succ]
      show ((forcePhaseAux c n).acceleration.set n _).getD j 0 = _
      rw [getD_set_ne _ _ _ _ _ (by omega), ih (by omega)]

theorem forcePhaseAux_vel_untouched (c : BoidComponent) (n j : ℕ) (h : n ≤ j) :
    (forcePhaseAux c n).velocity.getD j 0 = c.velocity.getD j 0 := by
  induction n with
  | zero => rfl
  | succ n ih =>
      rw [forcePhaseAux_succ]
      show ((forcePhaseAux c n).velocity.set n _).getD j 0 = _
      rw [getD_set_ne _ _ _ _ _ (by omega), ih (by omega)]

/-- The acceleration entry of boid `b` after the force loop has passed it:
the original entry plus this tick's contribution. -/
theorem forcePhaseAux_acc_written (c : BoidComponent) (n b : ℕ) (hb : b < n)
    (hlen : b < c.acceleration.length) :
    (forcePhaseAux c n).acceleration.getD b 0 =
      c.acceleration.getD b 0 + tickContribution c b := by
  induction n with
  | zero => omega
  | succ n ih =>
      rw [forcePhaseAux_succ]
      show ((forcePhaseAux c n).acceleration.set n _).getD b 0 = _
      rcases Nat.lt_or_ge b n with h | h
      · rw [getD_set_ne _ _ _ _ _ (by omega), ih h]
      · have hbn : b = n := by omega
        subst hbn
        rw [getD_set_self _ _ _ _ (by rw [forcePhaseAux_acc_length]; exact hlen),
          forcePhaseAux_acc_untouched c b b le_rfl]
        rfl

theorem forcePhase_position (c : BoidComponent) : (forcePhase c).position = c.position :=
  forcePhaseAux_position c _

theorem forcePhase_acc_length (c : BoidComponent) :
    (forcePhase c).acceleration.length = c.acceleration.length :=
  forcePhaseAux_acc_length c _

theorem forcePhase_vel_length (c : BoidComponent) :
    (forcePhase c).velocity.length = c.velocity.length :=
  forcePhaseAux_vel_length c _

theorem forcePhase_acc (c : BoidComponent) (b : ℕ) (hb : b < c.position.length)
    (hlen : b < c.acceleration.length) :
    (forcePhase c).acceleration.getD b 0 =
      c.acceleration.getD b 0 + tickContribution c b :=
  forcePhaseAux_acc_written c _ b hb hlen

/-! ## Structure of the integration loop -/

@[simp] theorem integStep_attractors (dt : ℝ) (scr : Vec2) (st : BoidComponent) (i : ℕ) :
    (integStep dt scr st i).attractors = st.attractors := rfl

theorem integAux_zero (c : BoidComponent) (dt : ℝ) (scr : Vec2) : integAux c dt scr 0 = c := rfl

theorem integAux_succ (c : BoidComponent) (dt : ℝ) (scr : Vec2) (n : ℕ) :
    integAux c dt scr (n + 1) = integStep dt scr (integAux c dt scr n) n := by
  unfold integAux
  rw [List.range_succ, List.foldl_append]
  rfl

theorem integAux_acc_length (c : BoidComponent) (dt : ℝ) (scr : Vec2) (n : ℕ) :
    (integAux c dt scr n).acceleration.length = c.acceleration.length := by
  induction n with
  | zero => rfl
  | succ n ih =>
      rw [integAux_succ]
      show ((integAux c dt scr n).acceleration.set n _).length = _
      rw [List.length_set, ih]

theorem integAux_vel_length (c : BoidComponent) (dt : ℝ) (scr : Vec2) (n : ℕ) :
    (integAux c dt scr n).velocity.length = c.velocity.length := by
  induction n with
  | zero => rfl
  | succ n ih =>
      rw [integAux_succ]
      show ((integAux c dt scr n).velocity.set n _).length = _
      rw [List.length_set, ih]

theorem integAux_pos_length (c : BoidComponent) (dt : ℝ) (scr : Vec2) (n : ℕ) :
    (integAux c dt scr n).position.length = c.position.length := by
  induction n with
  | zero => rfl
  | succ n ih =>
      rw [integAux_succ]
      show ((integAux c dt scr n).position.set n _).length = _
      rw [List.length_set, ih]

theorem integAux_acc_untouched (c : BoidComponent) (dt : ℝ) (scr : Vec2) (n j : ℕ)
    (h : n ≤ j) :
    (integAux c dt scr n).acceleration.getD j 0 = c.acceleration.getD j 0 := by
  induction n with
  | zero => rfl
  | succ n ih =>
      rw [integAux_succ]
      show ((integAux c dt scr n).acceleration.set n _).getD j 0 = _
      rw [getD_set_ne _ _ _ _ _ (by omega), ih (by omega)]

theorem integAux_vel_untouched (c : BoidComponent) (dt : ℝ) (scr : Vec2) (n j : ℕ)
    (h : n ≤ j) :
    (integAux c dt scr n).velocity.getD j 0 = c.velocity.getD j 0 := by
  induction n with
  | zero => rfl
  | succ n ih =>
      rw [integAux_succ]
      show ((integAux c dt scr n).velocity.set n _).getD j 0 = _
      rw [getD_set_ne _ _ _ _ _ (by omega), ih (by omega)]

/-- The acceleration entry of boid `b` after the integration loop has passed
it: the clamp of the entry the loop found there. -/
theorem integAux_acc_written (c : BoidComponent) (dt : ℝ) (scr : Vec2) (n b : ℕ)
    (hb : b < n) (hlen : b < c.acceleration.length) :
    (integAux c dt scr n).acceleration.getD b 0 = clampAccel (c.acceleration.getD b 0) := by
  induction n with
  | zero => omega
  | succ n ih =>
      rw [integAux_succ]
      show ((integAux c dt scr n).acceleration.set n _).getD b 0 = _
      rcases Nat.lt_or_ge b n with h | h
      · rw [getD_set_ne _ _ _ _ _ (by omega), ih h]
      · have hbn : b = n := by omega
        subst hbn
        rw [getD_set_self _ _ _ _ (by rw [integAux_acc_length]; exact hlen),
          integAux_acc_untouched c dt scr b b le_rfl]

/-- The velocity entry of boid `b` after the integration loop has passed it:
the clamped integration of the entries the loop found there. -/
theorem integAux_vel_written (c : BoidComponent) (dt : ℝ) (scr : Vec2) (n b : ℕ)
    (hb : b < n) (hlenV : b < c.velocity.length) :
    (integAux c dt scr n).velocity.getD b 0 =
      clampSpeed (c.velocity.getD b 0 + smul dt (clampAccel (c.acceleration.getD b 0))) := by
  induction n with
  | zero => omega
  | succ n ih =>
      rw [integAux_succ]
      show ((integAux c dt scr n).velocity.set n _).getD b 0 = _
      rcases Nat.lt_or_ge b n with h | h
      · rw [getD_set_ne _ _ _ _ _ (by omega), ih h]
      · have hbn : b = n := by omega
        subst hbn
        rw [getD_set_self _ _ _ _ (by rw [integAux_vel_length]; exact hlenV),
          integAux_vel_untouched c dt scr b b le_rfl,
          integAux_acc_untouched c dt scr b b le_rfl]

/-- Acceleration entry of boid `b` after a full `BoidComponent::update`:
the clamped sum of the previous acceleration and this tick's contribution. -/
theorem update_acc_getD (c : BoidComponent) (dt : ℝ) (scr : Vec2) (b : ℕ)
    (h1 : b < c.position.length) (h2 : b < c.acceleration.length) :
    (c.update dt scr).acceleration.getD b 0 =
      clampAccel (c.acceleration.getD b 0 + tickContribution c b) := by
  unfold BoidComponent.update
  rw [integAux_acc_written _ dt scr _ b (by rw [forcePhase_acc_length]; exact h2)
      (by rw [forcePhase_acc_length]; exact h2),
    forcePhase_acc c b h1 h2]

/-- Velocity entry of boid `b` after a full `BoidComponent::update`, in terms
of the state left by the force loop. -/
theorem update_vel_getD (c : BoidComponent) (dt : ℝ) (scr : Vec2) (b : ℕ)
    (h2 : b < c.acceleration.length) (h3 : b < c.velocity.length) :
    (c.update dt scr).velocity.getD b 0 =
      clampSpeed ((forcePhase c).velocity.getD b 0 +
        smul dt (clampAccel ((forcePhase c).acceleration.getD b 0))) := by
  unfold BoidComponent.update
  rw [integAux_vel_written _ dt scr _ b (by rw [forcePhase_acc_length]; exact h2)
      (by rw [forcePhase_vel_length]; exact h3)]

/-! ## Zero-vector and clamp lemmas -/

@[simp] theorem sepVector_zero : sepVector 0 = 0 := by
  refine Vec2.ext' ?_ ?_ <;> simp [sepVector]

@[simp] theorem cohVector_zero : cohVector 0 = 0 := by
  refine Vec2.ext' ?_ ?_ <;> simp [cohVector]

@[simp] theorem aliVector_zero : aliVector 0 = 0 := by
  refine Vec2.ext' ?_ ?_ <;> simp [aliVector]

@[simp] theorem normalize_zero : (0 : Vec2).normalize = 0 := by
  refine Vec2.ext' ?_ ?_ <;> simp [Vec2.normalize]

@[simp] theorem smul_zero_right (c : ℝ) : smul c 0 = 0 := by
  refine Vec2.ext' ?_ ?_ <;> simp

theorem clampAccel_zero : clampAccel 0 = 0 := by
  unfold clampAccel
  rw [norm_zero_vec, if_neg (by norm_num [ACCELERATION_LIMIT])]

theorem clampSpeed_zero : clampSpeed 0 = 0 := by
  have hhigh : clampSpeedHigh 0 = 0 := by
    unfold clampSpeedHigh
    rw [norm_zero_vec, if_neg (by norm_num [SPEED_LIMIT])]
  have hlow : clampSpeedLow 0 = 0 := by
    unfold clampSpeedLow
    rw [norm_zero_vec, if_pos (by norm_num [MIN_SPEED_LIMIT]), normalize_zero, smul_zero_right]
  unfold clampSpeed
  rw [hhigh, hlow]

/-- The double speed clamp brings every nonzero velocity into the band
`[MIN_SPEED_LIMIT, SPEED_LIMIT]`. -/
theorem clampSpeed_band (v : Vec2) (hv : v ≠ 0) :
    MIN_SPEED_LIMIT ≤ (clampSpeed v).norm ∧ (clampSpeed v).norm ≤ SPEED_LIMIT := by
  have h100 : (0 : ℝ) < SPEED_LIMIT := by norm_num [SPEED_LIMIT]
  have h50 : (0 : ℝ) < MIN_SPEED_LIMIT := by norm_num [MIN_SPEED_LIMIT]
  have h5100 : MIN_SPEED_LIMIT ≤ SPEED_LIMIT := by norm_num [MIN_SPEED_LIMIT, SPEED_LIMIT]
  unfold clampSpeed clampSpeedHigh clampSpeedLow
  by_cases h : v.norm > SPEED_LIMIT
  · rw [if_pos h]
    have hnorm : (smul SPEED_LIMIT v.normalize).norm = SPEED_LIMIT := by
      rw [norm_smul, norm_normalize hv, mul_one, abs_of_nonneg h100.le]
    rw [if_neg (by rw [hnorm]; linarith), hnorm]
    exact ⟨h5100, le_refl _⟩
  · rw [if_neg h]
    by_cases h2 : v.norm < MIN_SPEED_LIMIT
    · rw [if_pos h2]
      have hnorm : (smul MIN_SPEED_LIMIT v.normalize).norm = MIN_SPEED_LIMIT := by
        rw [norm_smul, norm_normalize hv, mul_one, abs_of_nonneg h50.le]
      rw [hnorm]
      exact ⟨le_refl _, h5100⟩
    · rw [if_neg h2]
      exact ⟨not_lt.mp h2, not_lt.mp h⟩

/-- A lone boid receives no neighbor forces: all three sums are zero, so the
tick's acceleration contribution is zero. -/
theorem tickContribution_singleton (p a v : Vec2) :
    tickContribution ⟨[p], [a], [v], attEmpty⟩ 0 = 0 := by
  show sepVector 0 + cohVector 0 + aliVector 0 = 0
  rw [sepVector_zero, cohVector_zero, aliVector_zero, add_zero, add_zero]

theorem forcePhase_vel_singleton (p a v : Vec2) :
    (forcePhase ⟨[p], [a], [v], attEmpty⟩).velocity.getD 0 0 = v := rfl

theorem forcePhase_acc_singleton (p a v : Vec2) :
    (forcePhase ⟨[p], [a], [v], attEmpty⟩).acceleration.getD 0 0 = a := by
  rw [forcePhase_acc _ 0 (by norm_num) (by norm_num), tickContribution_singleton, add_zero]
  rfl

/-- Claim C2, counterexample: the states `cA` and `cB` agree on every input
of this tick's force computation (identical positions, velocities and
attractors, hence identical contributions — both zero for a lone boid), yet
after `update` their stored accelerations differ: the leftover acceleration
`(7, 0)` of `cB` persists.  `BoidComponent::update` accumulates with `+=` and
never resets `acceleration[b]`, so the new acceleration does depend on the
previous tick's value. -/
theorem claim2_ctr :
    cA.position = cB.position ∧ cA.velocity = cB.velocity ∧ cA.attractors = cB.attractors ∧
      tickContribution cA 0 = tickContribution cB 0 ∧
      (cA.update 1 ⟨1000, 1000⟩).acceleration.getD 0 0 = ⟨0, 0⟩ ∧
      (cB.update 1 ⟨1000, 1000⟩).acceleration.getD 0 0 = ⟨7, 0⟩ ∧
      (cA.update 1 ⟨1000, 1000⟩).acceleration.getD 0 0 ≠
        (cB.update 1 ⟨1000, 1000⟩).acceleration.getD 0 0 := by
  have htA : tickContribution cA 0 = 0 := tickContribution_singleton ⟨0, 0⟩ ⟨0, 0⟩ ⟨60, 0⟩
  have htB : tickContribution cB 0 = 0 := tickContribution_singleton ⟨0, 0⟩ ⟨7, 0⟩ ⟨60, 0⟩
  have hA : (cA.update 1 ⟨1000, 1000⟩).acceleration.getD 0 0 = ⟨0, 0⟩ := by
    rw [update_acc_getD cA 1 _ 0 (by norm_num [cA]) (by norm_num [cA]), htA, add_zero]
    show clampAccel 0 = _
    rw [clampAccel_zero]
    rfl
  have hB : (cB.update 1 ⟨1000, 1000⟩).acceleration.getD 0 0 = ⟨7, 0⟩ := by
    rw [update_acc_getD cB 1 _ 0 (by norm_num [cB]) (by norm_num [cB]), htB, add_zero]
    show clampAccel ⟨7, 0⟩ = _
    unfold clampAccel
    rw [norm_axis, if_neg (by rw [abs_of_nonneg]; norm_num [ACCELERATION_LIMIT]; norm_num)]
  refine ⟨rfl, rfl, rfl, by rw [htA, htB], hA, hB, ?_⟩
  rw [hA, hB]
  intro h
  have hx := congrArg Vec2.x h
  norm_num at hx

/-- Claim C2 (amended): the acceleration stored for boid `b` after
`BoidComponent::update` is the clamp of the *previous* acceleration plus this
tick's separation+cohesion+alignment contribution — the acceleration is
accumulated across ticks (`+=` without a reset), not recomputed from this
tick's contributions alone. -/
theorem claim2_accel_accumulates (c : BoidComponent) (dt : ℝ) (scr : Vec2) (b : ℕ)
    (h1 : b < c.position.length) (h2 : b < c.acceleration.length) :
    (c.update dt scr).acceleration.getD b 0 =
      clampAccel (c.acceleration.getD b 0 + tickContribution c b) :=
  update_acc_getD c dt scr b h1 h2

/-- Witness for `claim2_accel_accumulates` on the concrete state `cB`. -/
theorem claim2_accel_accumulates_w :
    0 < cB.position.length ∧ 0 < cB.acceleration.length ∧
      (cB.update 1 ⟨1000, 1000⟩).acceleration.getD 0 0 =
        clampAccel (cB.acceleration.getD 0 0 + tickContribution cB 0) :=
  ⟨by norm_num [cB], by norm_num [cB],
    claim2_accel_accumulates cB 1 ⟨1000, 1000⟩ 0 (by norm_num [cB]) (by norm_num [cB])⟩

/-- Claim C6, counterexample: a boid whose integrated velocity is the zero
vector is not brought into the speed band `[50, 100]`.  On `cZ` the velocity
after `update` has magnitude `0` (in the Rust source the rescale divides by
`norm = 0.0` and produces `NaN` components, whose magnitude is likewise not
in the band; the real-division model yields the zero vector). -/
theorem claim6_ctr :
    ((cZ.update 1 ⟨1000, 1000⟩).velocity.getD 0 0).norm = 0 ∧
      ¬(MIN_SPEED_LIMIT ≤ ((cZ.update 1 ⟨1000, 1000⟩).velocity.getD 0 0).norm) := by
  have h : ((cZ.update 1 ⟨1000, 1000⟩).velocity.getD 0 0).norm = 0 := by
    rw [update_vel_getD cZ 1 _ 0 (by norm_num [cZ]) (by norm_num [cZ])]
    rw [show (forcePhase cZ).velocity.getD 0 0 = ⟨0, 0⟩ from
        forcePhase_vel_singleton ⟨0, 0⟩ ⟨0, 0⟩ ⟨0, 0⟩,
      show (forcePhase cZ).acceleration.getD 0 0 = ⟨0, 0⟩ from
        forcePhase_acc_singleton ⟨0, 0⟩ ⟨0, 0⟩ ⟨0, 0⟩]
    rw [show (⟨0, 0⟩ : Vec2) = (0 : Vec2) from rfl, clampAccel_zero, smul_zero_right,
      add_zero, clampSpeed_zero, norm_zero_vec]
  exact ⟨h, by rw [h]; norm_num [MIN_SPEED_LIMIT]⟩

/-- Claim C6 (amended): after every actor-engine update the velocity
magnitude of the player and of every projectile and obstacle is at most
`MAX_PHYSICS_VEL = 250`; after a flocking-engine update every boid whose
integrated velocity (velocity left by the force loop plus `dt` times the
clamped acceleration) is nonzero has velocity magnitude in
`[MIN_SPEED_LIMIT, SPEED_LIMIT] = [50, 100]`.  (The nonzero proviso is forced
by `claim6_ctr`: a zero integrated velocity is not brought into the band.) -/
theorem claim6_speed_bounds :
    (∀ (m : ActorManager) (seconds : ℝ) (input : InputState) (sw sh : ℝ),
      (m.update seconds input sw sh).player.velocity.norm ≤ MAX_PHYSICS_VEL ∧
        (∀ a ∈ (m.update seconds input sw sh).shots, a.velocity.norm ≤ MAX_PHYSICS_VEL) ∧
        (∀ a ∈ (m.update seconds input sw sh).rocks, a.velocity.norm ≤ MAX_PHYSICS_VEL)) ∧
      (∀ (c : BoidComponent) (dt : ℝ) (scr : Vec2) (b : ℕ),
        b < c.acceleration.length → b < c.velocity.length →
        (forcePhase c).velocity.getD b 0 +
            smul dt (clampAccel ((forcePhase c).acceleration.getD b 0)) ≠ 0 →
        MIN_SPEED_LIMIT ≤ ((c.update dt scr).velocity.getD b 0).norm ∧
          ((c.update dt scr).velocity.getD b 0).norm ≤ SPEED_LIMIT) := by
  constructor
  · exact actor_update_velocity_bound
  · intro c dt scr b h2 h3 hv
    rw [update_vel_getD c dt scr b h2 h3]
    exact clampSpeed_band _ hv

/-- Witness for `claim6_speed_bounds` on the concrete single-boid state `cA`
(integrated velocity `(60, 0)`, which the clamps leave in the band). -/
theorem claim6_speed_bounds_w :
    0 < cA.acceleration.length ∧ 0 < cA.velocity.length ∧
      (forcePhase cA).velocity.getD 0 0 +
          smul 1 (clampAccel ((forcePhase cA).acceleration.getD 0 0)) ≠ 0 ∧
      (MIN_SPEED_LIMIT ≤ ((cA.update 1 ⟨1000, 1000⟩).velocity.getD 0 0).norm ∧
        ((cA.update 1 ⟨1000, 1000⟩).velocity.getD 0 0).norm ≤ SPEED_LIMIT) := by
  have hvv : (forcePhase cA).velocity.getD 0 0 +
      smul 1 (clampAccel ((forcePhase cA).acceleration.getD 0 0)) ≠ 0 := by
    rw [show (forcePhase cA).velocity.getD 0 0 = ⟨60, 0⟩ from
        forcePhase_vel_singleton ⟨0, 0⟩ ⟨0, 0⟩ ⟨60, 0⟩,
      show (forcePhase cA).acceleration.getD 0 0 = ⟨0, 0⟩ from
        forcePhase_acc_singleton ⟨0, 0⟩ ⟨0, 0⟩ ⟨60, 0⟩,
      show (⟨0, 0⟩ : Vec2) = (0 : Vec2) from rfl, clampAccel_zero, smul_zero_right, add_zero]
    intro h
    have hx := congrArg Vec2.x h
    norm_num at hx
  exact ⟨by norm_num [cA], by norm_num [cA], hvv,
    claim6_speed_bounds.2 cA 1 ⟨1000, 1000⟩ 0 (by norm_num [cA]) (by norm_num [cA]) hvv⟩

theorem neighborFold_fst (pos vel : List Vec2) (b : ℕ) (l : List ℕ) (s : Vec2 × Vec2 × Vec2) :
    (l.foldl (neighborStep pos vel b) s).1 = s.1 + (l.map (sepTerm pos b)).sum := by
  induction l generalizing s with
  | nil => simp
  | cons t rest ih =>
      rw [List.foldl_cons, ih, List.map_cons, List.sum_cons]
      by_cases hbt : b = t
      · simp only [neighborStep, sepTerm, if_pos hbt, zero_add]
      · simp only [neighborStep, sepTerm, if_neg hbt]
        by_cases hsep : (pos.getD b 0 - pos.getD t 0).x * (pos.getD b 0 - pos.getD t 0).x +
            (pos.getD b 0 - pos.getD t 0).y * (pos.getD b 0 - pos.getD t 0).y < SEP_DIST_SQ
        · simp only [if_pos hsep]
          rw [add_assoc]
        · simp only [if_neg hsep]
          rw [zero_add]

/-- Claim C5, counterexample: the separation weight used by the code,
`sepWeight dist = 1 - (SEPARATION_DISTANCE - dist)/SEPARATION_DISTANCE
= dist/40`, is `1/4` at distance `10` and `3/4` at distance `30` — the
closer pair gets the *smaller* weight, refuting "this weight increases as the
distance between the two boids decreases". -/
theorem claim5_ctr :
    sepWeight 10 = 1 / 4 ∧ sepWeight 30 = 3 / 4 ∧ sepWeight 10 < sepWeight 30 := by
  norm_num [sepWeight, SEPARATION_DISTANCE]

/-- Claim C5 (amended): for every pair of boids within the separation
distance, a vector proportional to `(b.position - t.position)` weighted by
`sepWeight dist = 1 - (SEPARATION_DISTANCE - dist)/SEPARATION_DISTANCE` is
accumulated into the separation sum (the first component of `neighborSums`
equals the sum of the weighted terms `sepTerm` over all neighbor indices),
and the weight strictly *decreases* as the boids get closer (it is strictly
increasing in the distance). -/
theorem claim5_separation_weight :
    (∀ (pos vel : List Vec2) (b : ℕ),
      (neighborSums pos vel b).1 = ((List.range pos.length).map (sepTerm pos b)).sum) ∧
      ∀ d1 d2 : ℝ, d1 < d2 → sepWeight d1 < sepWeight d2 := by
  constructor
  · intro pos vel b
    unfold neighborSums
    rw [neighborFold_fst]
    show (0 : Vec2) + _ = _
    rw [zero_add]
  · intro d1 d2 h
    unfold sepWeight SEPARATION_DISTANCE
    norm_num
    linarith

/-- Witness for `claim5_separation_weight` at the distances `10 < 30`. -/
theorem claim5_separation_weight_w : (10 : ℝ) < 30 ∧ sepWeight 10 < sepWeight 30 :=
  ⟨by norm_num, claim5_separation_weight.2 10 30 (by norm_num)⟩

/-- Claim C1: how `BoidComponent::update` converts the force sums.  The code
divides each sum by `Vector2::len() = 2` (the number of entries of the
matrix, cast from `usize`), not by its norm, so for the separation sum
`(30, 40)` (norm `50`) the contribution is `(152.25, 203)` instead of the
claimed `SEPARATION_FORCE` times the unit vector, `(6.09, 8.12)`; and the
alignment conversion scales its x component by `COHESION_FORCE` instead of
`ALIGNMENT_FORCE`, so for the alignment sum `(2, 0)` the contribution is
`(0.1, 0)` instead of the claimed `(0.25, 0)`. -/
theorem claim1_force_conversion :
    sepVector ⟨30, 40⟩ = ⟨609 / 4, 203⟩ ∧
      smul SEPARATION_FORCE (Vec2.normalize ⟨30, 40⟩) = ⟨609 / 100, 203 / 25⟩ ∧
      sepVector ⟨30, 40⟩ ≠ smul SEPARATION_FORCE (Vec2.normalize ⟨30, 40⟩) ∧
      aliVector ⟨2, 0⟩ = ⟨1 / 10, 0⟩ ∧
      smul ALIGNMENT_FORCE (Vec2.normalize ⟨2, 0⟩) = ⟨1 / 4, 0⟩ ∧
      aliVector ⟨2, 0⟩ ≠ smul ALIGNMENT_FORCE (Vec2.normalize ⟨2, 0⟩) := by
  have hn : Vec2.norm ⟨30, 40⟩ = 50 := by
    unfold Vec2.norm
    rw [show (30 : ℝ) * 30 + 40 * 40 = 50 ^ 2 by norm_num, Real.sqrt_sq (by norm_num)]
  have hn2 : Vec2.norm ⟨2, 0⟩ = 2 := by rw [norm_axis]; norm_num
  have e1 : sepVector ⟨30, 40⟩ = ⟨609 / 4, 203⟩ := by
    refine Vec2.ext' ?_ ?_ <;> norm_num [sepVector, SEPARATION_FORCE, VECTOR2_LEN]
  have e2 : smul SEPARATION_FORCE (Vec2.normalize ⟨30, 40⟩) = ⟨609 / 100, 203 / 25⟩ := by
    refine Vec2.ext' ?_ ?_ <;> norm_num [Vec2.normalize, hn, SEPARATION_FORCE]
  have e3 : aliVector ⟨2, 0⟩ = ⟨1 / 10, 0⟩ := by
    refine Vec2.ext' ?_ ?_ <;>
      norm_num [aliVector, COHESION_FORCE, ALIGNMENT_FORCE, VECTOR2_LEN]
  have e4 : smul ALIGNMENT_FORCE (Vec2.normalize ⟨2, 0⟩) = ⟨1 / 4, 0⟩ := by
    refine Vec2.ext' ?_ ?_ <;> norm_num [Vec2.normalize, hn2, ALIGNMENT_FORCE]
  refine ⟨e1, e2, ?_, e3, e4, ?_⟩
  · rw [e1, e2]
    intro h
    have hx := congrArg Vec2.x h
    norm_num at hx
  · rw [e3, e4]
    intro h
    have hx := congrArg Vec2.x h
    norm_num at hx

/-! ## Parallel-array lengths (claim C10) -/

theorem spawnBoidsLoop_lengths (rnd : ℕ → ℝ) (k : ℕ) (c : BoidComponent) :
    (spawnBoidsLoop rnd k c).position.length = c.position.length + k ∧
      (spawnBoidsLoop rnd k c).acceleration.length = c.acceleration.length + k ∧
      (spawnBoidsLoop rnd k c).velocity.length = c.velocity.length + k := by
  induction k generalizing c with
  | zero => exact ⟨rfl, rfl, rfl⟩
  | succ k ih =>
      obtain ⟨h1, h2, h3⟩ := ih
        (spawn_random c (rnd (4 * k)) (rnd (4 * k + 1)) (rnd (4 * k + 2)) (rnd (4 * k + 3))).1
      have hs1 : (spawn_random c (rnd (4 * k)) (rnd (4 * k + 1)) (rnd (4 * k + 2))
          (rnd (4 * k + 3))).1.position.length = c.position.length + 1 := by
        simp [spawn_random]
      have hs2 : (spawn_random c (rnd (4 * k)) (rnd (4 * k + 1)) (rnd (4 * k + 2))
          (rnd (4 * k + 3))).1.acceleration.length = c.acceleration.length + 1 := by
        simp [spawn_random]
      have hs3 : (spawn_random c (rnd (4 * k)) (rnd (4 * k + 1)) (rnd (4 * k + 2))
          (rnd (4 * k + 3))).1.velocity.length = c.velocity.length + 1 := by
        simp [spawn_random]
      refine ⟨?_, ?_, ?_⟩
      · show (spawnBoidsLoop rnd k _).position.length = _
        rw [h1, hs1]
        omega
      · show (spawnBoidsLoop rnd k _).acceleration.length = _
        rw [h2, hs2]
        omega
      · show (spawnBoidsLoop rnd k _).velocity.length = _
        rw [h3, hs3]
        omega

theorem spawnAttractorsLoop_boids (screen : Vec2) (rnd : ℕ → ℝ) (k : ℕ) (c : BoidComponent) :
    (spawnAttractorsLoop screen rnd k c).position = c.position ∧
      (spawnAttractorsLoop screen rnd k c).acceleration = c.acceleration ∧
      (spawnAttractorsLoop screen rnd k c).velocity = c.velocity := by
  induction k generalizing c with
  | zero => exact ⟨rfl, rfl, rfl⟩
  | succ k ih =>
      obtain ⟨h1, h2, h3⟩ := ih (spawn_attractor c screen (rnd (2 * k)) (rnd (2 * k + 1))).1
      exact ⟨h1, h2, h3⟩

/-- Claim C10: the three boid arrays have equal lengths throughout.  `new`
creates three empty arrays; `spawn_random` appends exactly one element to
each; `update` changes no array length; and after `init` (100 spawns plus the
attractor spawns, which do not touch the boid arrays) all three arrays have
length `NUM_BOIDS`. -/
theorem claim10_parallel_lengths :
    (BoidComponent.new.position.length = 0 ∧ BoidComponent.new.acceleration.length = 0 ∧
        BoidComponent.new.velocity.length = 0) ∧
      (∀ (c : BoidComponent) (r1 r2 r3 r4 : ℝ),
        (spawn_random c r1 r2 r3 r4).1.position.length = c.position.length + 1 ∧
          (spawn_random c r1 r2 r3 r4).1.acceleration.length = c.acceleration.length + 1 ∧
          (spawn_random c r1 r2 r3 r4).1.velocity.length = c.velocity.length + 1) ∧
      (∀ (c : BoidComponent) (dt : ℝ) (scr : Vec2),
        (c.update dt scr).position.length = c.position.length ∧
          (c.update dt scr).acceleration.length = c.acceleration.length ∧
          (c.update dt scr).velocity.length = c.velocity.length) ∧
      (∀ (screen : Vec2) (rndB rndA : ℕ → ℝ),
        (BoidComponent.new.init screen rndB rndA).position.length = NUM_BOIDS ∧
          (BoidComponent.new.init screen rndB rndA).acceleration.length = NUM_BOIDS ∧
          (BoidComponent.new.init screen rndB rndA).velocity.length = NUM_BOIDS) := by
  refine ⟨⟨rfl, rfl, rfl⟩, ?_, ?_, ?_⟩
  · intro c r1 r2 r3 r4
    refine ⟨?_, ?_, ?_⟩ <;> simp [spawn_random]
  · intro c dt scr
    unfold BoidComponent.update
    refine ⟨?_, ?_, ?_⟩
    · rw [integAux_pos_length]
      show (forcePhaseAux c _).position.length = _
      rw [forcePhaseAux_position]
    · rw [integAux_acc_length, forcePhase_acc_length]
    · rw [integAux_vel_length, forcePhase_vel_length]
  · intro screen rndB rndA
    unfold BoidComponent.init
    obtain ⟨a1, a2, a3⟩ := spawnAttractorsLoop_boids screen rndA NUM_ATTRACTORS
      (spawnBoidsLoop rndB NUM_BOIDS BoidComponent.new)
    obtain ⟨b1, b2, b3⟩ := spawnBoidsLoop_lengths rndB NUM_BOIDS BoidComponent.new
    rw [a1, a2, a3, b1, b2, b3]
    refine ⟨rfl, rfl, rfl⟩

end

end RustBoids

